import Mathlib

/-!
Shallow embedding of the gonuts mint core (src/mint/mint.go) and proofs of
the specification claims about it.  Go's `uint64` arithmetic is modelled as
`Nat` with explicit reduction modulo `2^64`; fallible Go functions return
`Except Err`; the SQL store is modelled as in-memory lists threaded through
each operation; the Lightning backend and the external crypto packages
(`crypto`, `nut10`, `nut11` — repository code that is not under src/) are
modelled as oracle fields of an environment record.
-/

deriving instance DecidableEq for Except

namespace Gonuts

/-- Error values of the `cashu` package as used by src/mint/mint.go.
External (non-src) errors that the mint merely propagates are collapsed
into `OtherErr`. -/
inductive Err where
  | PaymentMethodNotSupported
  | UnitNotSupported
  | QuoteNotExist
  | MintQuoteRequestNotPaid
  | MintQuoteAlreadyIssued
  | OutputsOverQuoteAmount
  | InvalidBlindedMessageAmount
  | BlindedMessageAlreadySigned
  | InactiveKeysetSignatureRequest
  | UnknownKeyset
  | InvalidProof
  | ProofAlreadyUsed
  | ProofPending
  | DuplicateProofs
  | NoProofsProvided
  | InsufficientProofsAmount
  | MeltQuoteAlreadyPaid
  | MeltQuotePending
  | MeltAmountExceeded
  | LightningBackendErr (msg : String)
  | DBErr (msg : String)
  | StandardErr (msg : String)
  | InvalidWitness
  | NotEnoughSignatures
  | SigAllOnlySwap
  | EmptyPubkeys
  | OtherErr (msg : String)
  deriving DecidableEq, Repr

/-- Modulus of Go's `uint64`. -/
def U64 : Nat := 2 ^ 64

/-- Wrapping `uint64` addition (`a`, `b` assumed `< U64`). -/
def add64 (a b : Nat) : Nat := (a + b) % U64

/-- Wrapping `uint64` subtraction (`a`, `b` assumed `< U64`). -/
def sub64 (a b : Nat) : Nat := (a + U64 - b) % U64

/-- States of a mint quote (nut04). -/
inductive MintQuoteState where
  | Unpaid | Paid | Issued
  deriving DecidableEq, Repr

/-- States of a melt quote (nut05). -/
inductive MeltQuoteState where
  | Unpaid | Pending | Paid
  deriving DecidableEq, Repr

/-- storage.MintQuote. -/
structure MintQuote where
  id : String
  amount : Nat
  paymentRequest : String
  paymentHash : String
  state : MintQuoteState
  expiry : Nat
  deriving DecidableEq, Repr

/-- storage.MeltQuote. -/
structure MeltQuote where
  id : String
  invoiceRequest : String
  paymentHash : String
  amount : Nat
  feeReserve : Nat
  state : MeltQuoteState
  expiry : Nat
  preimage : String
  deriving DecidableEq, Repr

/-- cashu.BlindedMessage. -/
structure BlindedMessage where
  amount : Nat
  id : String
  B_ : String
  witness : String
  deriving DecidableEq, Repr

/-- cashu.BlindedSignature (DLEQ fields kept as opaque hex strings). -/
structure BlindedSignature where
  amount : Nat
  C_ : String
  id : String
  dleqE : String
  dleqS : String
  deriving DecidableEq, Repr

/-- cashu.Proof. -/
structure Proof where
  amount : Nat
  id : String
  secret : String
  C : String
  witness : String
  deriving DecidableEq, Repr

/-- storage.DBProof: a proof row keyed by its Y, tagged with the owning
melt quote when pending. -/
structure DBProof where
  y : String
  amount : Nat
  id : String
  secret : String
  c : String
  quoteId : String
  deriving DecidableEq, Repr

/-- crypto.MintKeyset: `keys` is the set of amounts for which a keypair
exists (the keypairs themselves live behind the signing oracles). -/
structure MintKeyset where
  id : String
  keys : List Nat
  inputFeePpk : Nat
  deriving DecidableEq, Repr

/-- The persistent store (storage.MintDB) as in-memory tables. -/
structure MintDB where
  mintQuotes : List MintQuote
  meltQuotes : List MeltQuote
  pendingProofs : List DBProof
  usedProofs : List DBProof
  blindSignatures : List (String × BlindedSignature)
  deriving DecidableEq, Repr

/-- db.GetMintQuote. -/
def getMintQuote (db : MintDB) (id : String) : Option MintQuote :=
  db.mintQuotes.find? (fun q => q.id = id)

/-- db.GetMintQuoteByPaymentHash. -/
def getMintQuoteByPaymentHash (db : MintDB) (hash : String) : Option MintQuote :=
  db.mintQuotes.find? (fun q => q.paymentHash = hash)

/-- db.UpdateMintQuoteState. -/
def updateMintQuoteState (db : MintDB) (id : String) (st : MintQuoteState) : MintDB :=
  { db with mintQuotes :=
      db.mintQuotes.map (fun q => if q.id = id then { q with state := st } else q) }

/-- db.GetMeltQuote. -/
def getMeltQuote (db : MintDB) (id : String) : Option MeltQuote :=
  db.meltQuotes.find? (fun q => q.id = id)

/-- db.SaveMeltQuote. -/
def saveMeltQuote (db : MintDB) (q : MeltQuote) : MintDB :=
  { db with meltQuotes := db.meltQuotes ++ [q] }

/-- db.UpdateMeltQuote: sets preimage and state of the quote with this id. -/
def updateMeltQuote (db : MintDB) (id preimage : String) (st : MeltQuoteState) : MintDB :=
  { db with meltQuotes :=
      db.meltQuotes.map (fun q =>
        if q.id = id then { q with preimage := preimage, state := st } else q) }

/-- db.GetPendingProofs: the pending rows whose Y is among `ys`. -/
def getPendingProofs (db : MintDB) (ys : List String) : List DBProof :=
  db.pendingProofs.filter (fun p => ys.contains p.y)

/-- db.GetProofsUsed: the spent rows whose Y is among `ys`. -/
def getProofsUsed (db : MintDB) (ys : List String) : List DBProof :=
  db.usedProofs.filter (fun p => ys.contains p.y)

/-- Build a DBProof row from a proof and its Y. -/
def toDBProof (quoteId : String) (yp : String × Proof) : DBProof :=
  { y := yp.1, amount := yp.2.amount, id := yp.2.id, secret := yp.2.secret,
    c := yp.2.C, quoteId := quoteId }

/-- db.AddPendingProofs: inserts the proofs into the pending table keyed by
their Y and tagged with the owning quote id. -/
def addPendingProofs (db : MintDB) (proofs : List Proof) (ys : List String)
    (quoteId : String) : MintDB :=
  { db with pendingProofs := db.pendingProofs ++ (ys.zip proofs).map (toDBProof quoteId) }

/-- db.RemovePendingProofs. -/
def removePendingProofs (db : MintDB) (ys : List String) : MintDB :=
  { db with pendingProofs := db.pendingProofs.filter (fun p => ¬ ys.contains p.y) }

/-- db.GetPendingProofsByQuote. -/
def getPendingProofsByQuote (db : MintDB) (quoteId : String) : List DBProof :=
  db.pendingProofs.filter (fun p => p.quoteId = quoteId)

/-- db.SaveProofs: marks the proofs as spent by inserting them, keyed by
their Y, into the used-proofs table. -/
def saveProofs (db : MintDB) (proofs : List Proof) (ys : List String) : MintDB :=
  { db with usedProofs := db.usedProofs ++ (ys.zip proofs).map (toDBProof "") }

/-- db.GetBlindSignature: the stored signature for one `B_`, if any. -/
def getBlindSignature (db : MintDB) (b : String) : Option BlindedSignature :=
  (db.blindSignatures.find? (fun p => p.1 = b)).map Prod.snd

/-- db.GetBlindSignatures: the stored signatures whose `B_` is among `bs`. -/
def getBlindSignatures (db : MintDB) (bs : List String) : List BlindedSignature :=
  (db.blindSignatures.filter (fun p => bs.contains p.1)).map Prod.snd

/-- db.SaveBlindSignature. -/
def saveBlindSignature (db : MintDB) (b : String) (sig : BlindedSignature) : MintDB :=
  { db with blindSignatures := db.blindSignatures ++ [(b, sig)] }

/-- lightning.Invoice status result (settled flag and preimage). -/
structure InvoiceStat where
  settled : Bool
  preimage : String
  deriving DecidableEq, Repr

/-- lightning.PaymentStatus. -/
inductive PayStatus where
  | Succeeded | Pending | Failed
  deriving DecidableEq, Repr

/-- lightning.PaymentStatus response (status plus preimage). -/
structure PaymentResult where
  status : PayStatus
  preimage : String
  deriving DecidableEq, Repr

/-- Decoded bolt11 invoice (the fields MeltTokens/RequestMeltQuote read). -/
structure Bolt11 where
  msat : Int
  paymentHash : String
  deriving DecidableEq, Repr

/-- nut10 well-known secret after deserialization: the `data` field and the
raw tag lists. -/
structure WellKnownSecret where
  data : String
  tags : List (List String)
  deriving DecidableEq, Repr

/-- nut11.P2PKTags as consumed by verifyP2PKLockedProof. -/
structure P2PKTags where
  nsigs : Int
  pubkeys : List String
  locktime : Int
  refund : List String
  deriving DecidableEq, Repr

/-- Oracles for the external packages the mint core calls: the `crypto`,
`nut10` and `nut11` packages (repository code not under src/), the
Lightning backend, the clock and the random quote-id source.  Claims are
proved for every instantiation of these fields unless a counterexample
pins a concrete one. -/
structure Env where
  hashToCurve : String → Option String
  verify : String → Nat → String → String → Bool
  parsePoint : String → Bool
  signBlind : String → Nat → String → String × String × String
  isSecretP2PK : String → Bool
  deserializeSecret : String → Option WellKnownSecret
  parseP2PKTags : List (List String) → Except String P2PKTags
  parsePublicKey : String → Option String
  parseWitness : String → Option (List String)
  sha256 : String → String
  hasValidSignatures : String → List String → Int → List String → Bool
  proofsSigAll : List Proof → Bool
  verifyP2PKBlindedMsgs : List Proof → List BlindedMessage → Except Err Unit
  now : Int
  nowUnix : Nat
  invoiceStatus : String → Except String InvoiceStat
  sendPayment : String → Nat → Except String PaymentResult
  outgoingPaymentStatus : String → PaymentResult × Option String
  feeReserve : Nat → Nat
  decodeInvoice : String → Except String Bolt11
  newQuoteId : String

/-- MintLimits (only the fields the embedded operations read). -/
structure MintLimits where
  mintMaxAmount : Nat
  meltMaxAmount : Nat
  maxBalance : Nat
  deriving DecidableEq, Repr

/-- The Mint value: store plus the keyset maps. -/
structure Mint where
  db : MintDB
  activeKeysets : List MintKeyset
  keysets : List MintKeyset
  limits : MintLimits
  deriving DecidableEq, Repr

/-- Go map lookup `keysets[id]` as an association-list search. -/
def lookupKeyset (ks : List MintKeyset) (id : String) : Option MintKeyset :=
  ks.find? (fun k => k.id = id)

/-- Wrapping `uint64` sum of a list of amounts, in Go's accumulation order. -/
def sumAmounts (amounts : List Nat) : Nat := amounts.foldl add64 0

/-- The Y-computation loop shared by Swap and MeltTokens: hash-to-curve of
every secret, failing at the first secret the oracle rejects. -/
def computeYs (env : Env) : List Proof → Option (List String)
  | [] => some []
  | p :: ps =>
    match env.hashToCurve p.secret with
    | none => none
    | some y => (computeYs env ps).map (fun ys => y :: ys)

/-- Whether the character list `sub` occurs at the start of `l`. -/
def charsStartWith : List Char → List Char → Bool
  | [], _ => true
  | _ :: _, [] => false
  | a :: as, b :: bs => a = b && charsStartWith as bs

/-- Whether the character list `sub` occurs anywhere inside `l`. -/
def charsContain (sub : List Char) : List Char → Bool
  | [] => charsStartWith sub []
  | b :: bs => charsStartWith sub (b :: bs) || charsContain sub bs

/-- Go's strings.Contains. -/
def strContains (s sub : String) : Bool := charsContain sub.data s.data

/-- Modelled from the spec: `cashu.CheckDuplicateProofs` (the cashu package
is not under src/) — "Duplicate `Y` within the submitted list", here
applied to the precomputed Y list that runs parallel to the proofs. -/
def hasDuplicates : List String → Bool
  | [] => false
  | y :: ys => ys.contains y || hasDuplicates ys

/-- verifyP2PKLockedProof from src/mint/mint.go (lines 922-979): checks a
P2PK witness against the well-known secret's tags, with the
locktime/refund rules. -/
def verifyP2PKLockedProof (env : Env) (proof : Proof) : Except Err Unit :=
  match env.deserializeSecret proof.secret with
  | none => .error (.StandardErr "invalid secret")
  | some sec =>
    let sigs := (env.parseWitness proof.witness).getD []
    match env.parseP2PKTags sec.tags with
    | .error e => .error (.OtherErr e)
    | .ok tags =>
      if tags.locktime > 0 ∧ env.now > tags.locktime then
        if tags.refund = [] then .ok ()
        else
          let hash := env.sha256 proof.secret
          if sigs.length < 1 then .error .InvalidWitness
          else if ¬ env.hasValidSignatures hash sigs 1 tags.refund then
            .error .NotEnoughSignatures
          else .ok ()
      else
        match env.parsePublicKey sec.data with
        | none => .error (.OtherErr "invalid public key")
        | some pk =>
          let hash := env.sha256 proof.secret
          if tags.nsigs > 0 then
            if tags.pubkeys = [] then .error .EmptyPubkeys
            else if sigs.length < 1 then .error .InvalidWitness
            else if ¬ env.hasValidSignatures hash sigs tags.nsigs (pk :: tags.pubkeys) then
              .error .NotEnoughSignatures
            else .ok ()
          else
            if sigs.length < 1 then .error .InvalidWitness
            else if ¬ env.hasValidSignatures hash sigs 1 [pk] then
              .error .NotEnoughSignatures
            else .ok ()

/-- The per-proof loop of verifyProofs: keyset lookup, amount lookup, P2PK
dispatch, point parsing and BDHKE verification, in source order. -/
def perProofChecks (env : Env) (m : Mint) : List Proof → Except Err Unit
  | [] => .ok ()
  | p :: rest =>
    match lookupKeyset m.keysets p.id with
    | none => .error .UnknownKeyset
    | some keyset =>
      if ¬ keyset.keys.contains p.amount then .error .InvalidProof
      else
        let p2pk : Except Err Unit :=
          if env.isSecretP2PK p.secret then verifyP2PKLockedProof env p else .ok ()
        match p2pk with
        | .error e => .error e
        | .ok _ =>
          if ¬ env.parsePoint p.C then .error (.StandardErr "invalid C")
          else if ¬ env.verify p.id p.amount p.secret p.C then .error .InvalidProof
          else perProofChecks env m rest

/-- verifyProofs from src/mint/mint.go (lines 851-920). -/
def verifyProofs (env : Env) (m : Mint) (proofs : List Proof)
    (ys : List String) : Except Err Unit :=
  if proofs = [] then .error .NoProofsProvided
  else if getPendingProofs m.db ys ≠ [] then .error .ProofPending
  else if getProofsUsed m.db ys ≠ [] then .error .ProofAlreadyUsed
  else if hasDuplicates ys then .error .DuplicateProofs
  else perProofChecks env m proofs

/-- The loop of signBlindedMessages, threading the store through the
per-message SaveBlindSignature calls. -/
def signBlindedMessagesGo (env : Env) (m : Mint) (db : MintDB)
    (acc : List BlindedSignature) :
    List BlindedMessage → Except Err (List BlindedSignature) × MintDB
  | [] => (.ok acc.reverse, db)
  | msg :: rest =>
    if (lookupKeyset m.keysets msg.id).isNone then (.error .UnknownKeyset, db)
    else
      match lookupKeyset m.activeKeysets msg.id with
      | none => (.error .InactiveKeysetSignatureRequest, db)
      | some keyset =>
        if ¬ keyset.keys.contains msg.amount then
          (.error .InvalidBlindedMessageAmount, db)
        else if ¬ env.parsePoint msg.B_ then (.error (.StandardErr "invalid B_"), db)
        else
          let ces := env.signBlind keyset.id msg.amount msg.B_
          let sig : BlindedSignature :=
            { amount := msg.amount, C_ := ces.1, id := keyset.id,
              dleqE := ces.2.1, dleqS := ces.2.2 }
          signBlindedMessagesGo env m (saveBlindSignature db msg.B_ sig)
            (sig :: acc) rest

/-- signBlindedMessages from src/mint/mint.go (lines 1060-1113). -/
def signBlindedMessages (env : Env) (m : Mint) (db : MintDB)
    (msgs : List BlindedMessage) : Except Err (List BlindedSignature) × MintDB :=
  signBlindedMessagesGo env m db [] msgs

/-- MintTokens from src/mint/mint.go (lines 280-356). -/
def mintTokens (env : Env) (m : Mint) (method id : String)
    (msgs : List BlindedMessage) : Except Err (List BlindedSignature) × MintDB :=
  if method ≠ "bolt11" then (.error .PaymentMethodNotSupported, m.db)
  else
    match getMintQuote m.db id with
    | none => (.error .QuoteNotExist, m.db)
    | some mintQuote =>
      let invoicePaid : Except Err Bool :=
        if mintQuote.state = .Unpaid then
          match env.invoiceStatus mintQuote.paymentHash with
          | .error e => .error (.LightningBackendErr e)
          | .ok st => .ok st.settled
        else .ok true
      match invoicePaid with
      | .error e => (.error e, m.db)
      | .ok paid =>
        if paid then
          if mintQuote.state = .Issued then (.error .MintQuoteAlreadyIssued, m.db)
          else
            let blindedMessagesAmount := sumAmounts (msgs.map (fun bm => bm.amount))
            let B_s := msgs.map (fun bm => bm.B_)
            if msgs.any (fun msg => blindedMessagesAmount < msg.amount) then
              (.error .InvalidBlindedMessageAmount, m.db)
            else if blindedMessagesAmount > mintQuote.amount then
              (.error .OutputsOverQuoteAmount, m.db)
            else if (getBlindSignatures m.db B_s).length > 0 then
              (.error .BlindedMessageAlreadySigned, m.db)
            else
              match signBlindedMessages env m m.db msgs with
              | (.error e, db') => (.error e, db')
              | (.ok sigs, db') =>
                (.ok sigs, updateMintQuoteState db' mintQuote.id .Issued)
        else (.error .MintQuoteRequestNotPaid, m.db)

/-- TransactionFees from src/mint/mint.go (lines 1125-1133): a missing
keyset id contributes the Go zero value 0, as in the source. -/
def transactionFees (m : Mint) (inputs : List Proof) : Nat :=
  let fees := inputs.foldl
    (fun acc p =>
      add64 acc (((lookupKeyset m.keysets p.id).map MintKeyset.inputFeePpk).getD 0)) 0
  add64 fees 999 / 1000

/-- Swap from src/mint/mint.go (lines 363-432).  The SIG_ALL blinded-message
check (verifyP2PKBlindedMessages) is left to the oracle since no claim
depends on its internals. -/
def swap (env : Env) (m : Mint) (proofs : List Proof)
    (msgs : List BlindedMessage) : Except Err (List BlindedSignature) × MintDB :=
  match computeYs env proofs with
  | none => (.error .InvalidProof, m.db)
  | some ys =>
    let proofsAmount := sumAmounts (proofs.map (fun p => p.amount))
    let blindedMessagesAmount := sumAmounts (msgs.map (fun bm => bm.amount))
    let B_s := msgs.map (fun bm => bm.B_)
    if msgs.any (fun msg => blindedMessagesAmount < msg.amount) then
      (.error .InvalidBlindedMessageAmount, m.db)
    else
      let fees := transactionFees m proofs
      if sub64 proofsAmount fees < blindedMessagesAmount then
        (.error .InsufficientProofsAmount, m.db)
      else
        match verifyProofs env m proofs ys with
        | .error e => (.error e, m.db)
        | .ok _ =>
          if (getBlindSignatures m.db B_s).length > 0 then
            (.error .BlindedMessageAlreadySigned, m.db)
          else
            let sigAllCheck : Except Err Unit :=
              if env.proofsSigAll proofs then env.verifyP2PKBlindedMsgs proofs msgs
              else .ok ()
            match sigAllCheck with
            | .error e => (.error e, m.db)
            | .ok _ =>
              match signBlindedMessages env m m.db msgs with
              | (.error e, db') => (.error e, db')
              | (.ok sigs, db') => (.ok sigs, saveProofs db' proofs ys)

/-- RequestMeltQuote from src/mint/mint.go (lines 436-495). -/
def requestMeltQuote (env : Env) (m : Mint) (method request unit : String) :
    Except Err MeltQuote × MintDB :=
  if method ≠ "bolt11" then (.error .PaymentMethodNotSupported, m.db)
  else if unit ≠ "sat" then (.error .UnitNotSupported, m.db)
  else
    match env.decodeInvoice request with
    | .error e => (.error (.StandardErr e), m.db)
    | .ok bolt11 =>
      if bolt11.msat = 0 then (.error (.StandardErr "invoice has no amount"), m.db)
      else
        let satAmount := (bolt11.msat.emod (U64 : Int)).toNat / 1000
        if m.limits.meltMaxAmount > 0 ∧ satAmount > m.limits.meltMaxAmount then
          (.error .MeltAmountExceeded, m.db)
        else
          let fee := env.feeReserve satAmount
          let meltQuote : MeltQuote :=
            { id := env.newQuoteId, invoiceRequest := request,
              paymentHash := bolt11.paymentHash, amount := satAmount,
              feeReserve := fee, state := .Unpaid,
              expiry := env.nowUnix + 600, preimage := "" }
          let meltQuote :=
            match getMintQuoteByPaymentHash m.db bolt11.paymentHash with
            | some mintQuote =>
              { meltQuote with
                invoiceRequest := mintQuote.paymentRequest,
                paymentHash := mintQuote.paymentHash,
                feeReserve := 0 }
            | none => meltQuote
          (.ok meltQuote, saveMeltQuote m.db meltQuote)

/-- One recorded call to the Lightning backend, for stating which backend
operations an execution performed. -/
inductive LNCall where
  | invoiceStatusCall (hash : String)
  | sendPaymentCall (invoice : String) (amount : Nat)
  | outgoingStatusCall (hash : String)
  deriving DecidableEq, Repr

/-- settleQuotesInternally from src/mint/mint.go (lines 758-786). -/
def settleQuotesInternally (env : Env) (db : MintDB) (mintQuote : MintQuote)
    (meltQuote : MeltQuote) : Except Err MeltQuote × MintDB :=
  match env.invoiceStatus mintQuote.paymentHash with
  | .error e => (.error (.LightningBackendErr e), db)
  | .ok invoice =>
    let meltQuote := { meltQuote with state := .Paid, preimage := invoice.preimage }
    let db := updateMeltQuote db meltQuote.id meltQuote.preimage meltQuote.state
    let db := updateMintQuoteState db mintQuote.id .Paid
    (.ok meltQuote, db)

/-- The lightning.Failed arm of MeltTokens (lines 714-749): probe the
outgoing payment status and converge the quote state. -/
def meltHandleFailed (env : Env) (meltQuote : MeltQuote) (db : MintDB)
    (ys : List String) (proofs : List Proof) :
    Except Err MeltQuote × MintDB × List LNCall :=
  let probe := env.outgoingPaymentStatus meltQuote.paymentHash
  let trace := [LNCall.outgoingStatusCall meltQuote.paymentHash]
  let paymentStatus := probe.1
  if paymentStatus.status = .Pending then (.ok meltQuote, db, trace)
  else
    let step :=
      if probe.2.isSome then
        (({ meltQuote with state := .Unpaid } : MeltQuote),
          removePendingProofs (updateMeltQuote db meltQuote.id "" .Unpaid) ys)
      else (meltQuote, db)
    let meltQuote := step.1
    let db := step.2
    if paymentStatus.status = .Succeeded then
      let db := saveProofs (removePendingProofs db ys) proofs ys
      let meltQuote :=
        { meltQuote with state := .Paid, preimage := paymentStatus.preimage }
      let db := updateMeltQuote db meltQuote.id paymentStatus.preimage .Paid
      (.ok meltQuote, db, trace)
    else (.ok meltQuote, db, trace)

/-- MeltTokens from src/mint/mint.go (lines 591-754).  The third component
of the result records the Lightning-backend calls the execution made. -/
def meltTokens (env : Env) (m : Mint) (method quoteId : String)
    (proofs : List Proof) : Except Err MeltQuote × MintDB × List LNCall :=
  match computeYs env proofs with
  | none => (.error .InvalidProof, m.db, [])
  | some ys =>
    let proofsAmount := sumAmounts (proofs.map (fun p => p.amount))
    if method ≠ "bolt11" then (.error .PaymentMethodNotSupported, m.db, [])
    else
      match getMeltQuote m.db quoteId with
      | none => (.error .QuoteNotExist, m.db, [])
      | some meltQuote =>
        if meltQuote.state = .Paid then (.error .MeltQuoteAlreadyPaid, m.db, [])
        else if meltQuote.state = .Pending then (.error .MeltQuotePending, m.db, [])
        else
          match verifyProofs env m proofs ys with
          | .error e => (.error e, m.db, [])
          | .ok _ =>
            let fees := transactionFees m proofs
            if proofsAmount < add64 (add64 meltQuote.amount meltQuote.feeReserve) fees then
              (.error .InsufficientProofsAmount, m.db, [])
            else if env.proofsSigAll proofs then (.error .SigAllOnlySwap, m.db, [])
            else
              let db := addPendingProofs m.db proofs ys meltQuote.id
              let meltQuote := { meltQuote with state := .Pending }
              let db := updateMeltQuote db meltQuote.id "" .Pending
              match getMintQuoteByPaymentHash db meltQuote.paymentHash with
              | some mintQuote =>
                let trace := [LNCall.invoiceStatusCall mintQuote.paymentHash]
                match settleQuotesInternally env db mintQuote meltQuote with
                | (.error e, db) => (.error e, db, trace)
                | (.ok meltQuote, db) =>
                  let db := removePendingProofs db ys
                  let db := saveProofs db proofs ys
                  (.ok meltQuote, db, trace)
              | none =>
                let payCall := LNCall.sendPaymentCall meltQuote.invoiceRequest meltQuote.amount
                match env.sendPayment meltQuote.invoiceRequest meltQuote.amount with
                | .error e =>
                  if strContains e "payment error" then
                    let meltQuote := { meltQuote with state := .Unpaid }
                    let db := updateMeltQuote db meltQuote.id "" .Unpaid
                    let db := removePendingProofs db ys
                    (.ok meltQuote, db, [payCall])
                  else
                    let r := meltHandleFailed env meltQuote db ys proofs
                    (r.1, r.2.1, payCall :: r.2.2)
                | .ok resp =>
                  match resp.status with
                  | .Succeeded =>
                    let db := saveProofs (removePendingProofs db ys) proofs ys
                    let meltQuote :=
                      { meltQuote with state := .Paid, preimage := resp.preimage }
                    let db := updateMeltQuote db meltQuote.id resp.preimage .Paid
                    (.ok meltQuote, db, [payCall])
                  | .Pending => (.ok meltQuote, db, [payCall])
                  | .Failed =>
                    let r := meltHandleFailed env meltQuote db ys proofs
                    (r.1, r.2.1, payCall :: r.2.2)

/-- RestoreSignatures from src/mint/mint.go (lines 831-849). -/
def restoreSignatures (db : MintDB) :
    List BlindedMessage → List BlindedMessage × List BlindedSignature
  | [] => ([], [])
  | bm :: rest =>
    match getBlindSignature db bm.B_ with
    | none => restoreSignatures db rest
    | some sig =>
      let r := restoreSignatures db rest
      (bm :: r.1, sig :: r.2)

/-! Helper lemmas shared across the claim proofs. -/

theorem filterMap_filter_isSome {α β : Type} (f : α → Option β) (l : List α) :
    (l.filter (fun x => (f x).isSome)).filterMap f = l.filterMap f := by
  induction l with
  | nil => rfl
  | cons a l ih =>
    cases h : f a <;> simp [List.filter_cons, List.filterMap_cons, h, ih]

theorem restoreSignatures_eq (db : MintDB) (bms : List BlindedMessage) :
    restoreSignatures db bms =
      (bms.filter (fun bm => (getBlindSignature db bm.B_).isSome),
       bms.filterMap (fun bm => getBlindSignature db bm.B_)) := by
  induction bms with
  | nil => rfl
  | cons bm rest ih =>
    cases h : getBlindSignature db bm.B_ with
    | none => simp [restoreSignatures, h, ih, List.filter_cons, List.filterMap_cons]
    | some sig => simp [restoreSignatures, h, ih, List.filter_cons, List.filterMap_cons]

/-- C8: RestoreSignatures returns exactly the submitted blinded messages
whose `B_` has a stored signature, each paired with that stored signature,
in input order and inventing no entries (first conjunct), and restoring the
returned outputs again reproduces the same outputs and signatures
(idempotence, second conjunct). -/
theorem restore_signatures_idempotent (db : MintDB) (bms : List BlindedMessage) :
    restoreSignatures db bms =
      (bms.filter (fun bm => (getBlindSignature db bm.B_).isSome),
       bms.filterMap (fun bm => getBlindSignature db bm.B_)) ∧
    restoreSignatures db (restoreSignatures db bms).1 = restoreSignatures db bms := by
  refine ⟨restoreSignatures_eq db bms, ?_⟩
  rw [restoreSignatures_eq db bms, restoreSignatures_eq db]
  simp [List.filter_filter, filterMap_filter_isSome]

theorem find?_map_comm {α β : Type} (f : α → β) (p : α → Bool) (q : β → Bool)
    (h : ∀ a, q (f a) = p a) (l : List α) :
    (l.map f).find? q = (l.find? p).map f := by
  rw [List.find?_map, show q ∘ f = p from funext h]

theorem getMintQuote_update (db : MintDB) (id qid : String) (st : MintQuoteState) :
    getMintQuote (updateMintQuoteState db qid st) id =
      (getMintQuote db id).map
        (fun q => if q.id = qid then { q with state := st } else q) := by
  unfold getMintQuote updateMintQuoteState
  exact find?_map_comm _ _ _ (fun a => by by_cases h : a.id = qid <;> simp [h]) _

theorem getMeltQuote_update (db : MintDB) (id qid preimage : String)
    (st : MeltQuoteState) :
    getMeltQuote (updateMeltQuote db qid preimage st) id =
      (getMeltQuote db id).map
        (fun q => if q.id = qid then { q with preimage := preimage, state := st } else q) := by
  unfold getMeltQuote updateMeltQuote
  exact find?_map_comm _ _ _ (fun a => by by_cases h : a.id = qid <;> simp [h]) _

theorem signBlindedMessagesGo_db (env : Env) (m : Mint) (db : MintDB)
    (acc : List BlindedSignature) (msgs : List BlindedMessage) :
    (signBlindedMessagesGo env m db acc msgs).2.mintQuotes = db.mintQuotes ∧
    (signBlindedMessagesGo env m db acc msgs).2.meltQuotes = db.meltQuotes ∧
    (signBlindedMessagesGo env m db acc msgs).2.pendingProofs = db.pendingProofs ∧
    (signBlindedMessagesGo env m db acc msgs).2.usedProofs = db.usedProofs := by
  induction msgs generalizing db acc with
  | nil => exact ⟨rfl, rfl, rfl, rfl⟩
  | cons msg rest ih =>
    rw [signBlindedMessagesGo]
    split
    · exact ⟨rfl, rfl, rfl, rfl⟩
    · split
      · exact ⟨rfl, rfl, rfl, rfl⟩
      · split
        · exact ⟨rfl, rfl, rfl, rfl⟩
        · split
          · exact ⟨rfl, rfl, rfl, rfl⟩
          · exact ih _ _

theorem getMintQuote_id (db : MintDB) (id : String) (q : MintQuote)
    (h : getMintQuote db id = some q) : q.id = id := by
  unfold getMintQuote at h
  simpa using List.find?_some h

theorem getMintQuote_congr (db db' : MintDB) (id : String)
    (h : db.mintQuotes = db'.mintQuotes) : getMintQuote db id = getMintQuote db' id := by
  unfold getMintQuote
  rw [h]

/-- C1: once a mint quote is in state Issued, every MintTokens call for it
returns MintQuoteAlreadyIssued and leaves the store untouched (first
conjunct); and whenever MintTokens succeeds the quote becomes Issued, so a
second call for the same quote id returns MintQuoteAlreadyIssued — i.e.
MintTokens succeeds at most once per quote (second conjunct). -/
theorem mint_tokens_at_most_once (env : Env) (m : Mint) (id : String)
    (msgs msgs2 : List BlindedMessage) (q : MintQuote)
    (hq : getMintQuote m.db id = some q) :
    (q.state = .Issued →
      mintTokens env m "bolt11" id msgs = (.error .MintQuoteAlreadyIssued, m.db)) ∧
    (∀ sigs db', mintTokens env m "bolt11" id msgs = (.ok sigs, db') →
      getMintQuote db' id = some { q with state := .Issued } ∧
      mintTokens env { m with db := db' } "bolt11" id msgs2 =
        (.error .MintQuoteAlreadyIssued, db')) := by
  have hid : q.id = id := getMintQuote_id _ _ _ hq
  constructor
  · intro hiss
    unfold mintTokens
    simp [hq, hiss]
  · intro sigs db' h
    unfold mintTokens at h
    rw [hq] at h
    repeat'
      first
        | (injection h with h1 h2; injection h1)
        | dsimp only [] at h
        | split at h
    all_goals
      rename_i sigsX dbx heq hsig
      have hdb : dbx.mintQuotes = m.db.mintQuotes := by
        have hgo := (signBlindedMessagesGo_db env m m.db [] msgs).1
        unfold signBlindedMessages at heq
        rw [heq] at hgo
        exact hgo
      subst h2
      have hq' : getMintQuote (updateMintQuoteState dbx q.id .Issued) id =
          some { q with state := .Issued } := by
        rw [getMintQuote_update, getMintQuote_congr dbx m.db id hdb, hq]
        simp
      refine ⟨hq', ?_⟩
      unfold mintTokens
      simp [hq']

/-- A concrete environment used to instantiate witnesses and
counterexamples: hash-to-curve is the identity on secrets (failing on the
distinguished secret "badsecret"), BDHKE verification always accepts, and
the backend answers are fixed. -/
def testEnv : Env where
  hashToCurve := fun s => if s = "badsecret" then none else some s
  verify := fun _ _ _ _ => true
  parsePoint := fun _ => true
  signBlind := fun _ _ b => (b, "e", "s")
  isSecretP2PK := fun _ => false
  deserializeSecret := fun _ => none
  parseP2PKTags := fun _ => .error "no tags"
  parsePublicKey := fun _ => none
  parseWitness := fun _ => none
  sha256 := fun s => s
  hasValidSignatures := fun _ _ _ _ => false
  proofsSigAll := fun _ => false
  verifyP2PKBlindedMsgs := fun _ _ => .ok ()
  now := 0
  nowUnix := 0
  invoiceStatus := fun _ => .ok { settled := true, preimage := "preimg" }
  sendPayment := fun _ _ => .ok { status := .Succeeded, preimage := "pp" }
  outgoingPaymentStatus := fun _ => ({ status := .Failed, preimage := "" }, none)
  feeReserve := fun _ => 0
  decodeInvoice := fun _ => .error "bad invoice"
  newQuoteId := "newq"

/-- An empty store. -/
def emptyDB : MintDB :=
  { mintQuotes := [], meltQuotes := [], pendingProofs := [], usedProofs := [],
    blindSignatures := [] }

/-- A mint quote in state Issued, for the C1 witness. -/
def quoteC1 : MintQuote :=
  { id := "q1", amount := 10, paymentRequest := "pr", paymentHash := "ph",
    state := .Issued, expiry := 0 }

/-- Limits with every cap disabled. -/
def noLimits : MintLimits :=
  { mintMaxAmount := 0, meltMaxAmount := 0, maxBalance := 0 }

/-- A mint holding one Issued mint quote, for the C1 witness. -/
def mintC1 : Mint :=
  { db := { emptyDB with mintQuotes := [quoteC1] },
    activeKeysets := [], keysets := [], limits := noLimits }

/-- Witness for C1: on a concrete Issued quote, MintTokens returns
MintQuoteAlreadyIssued and leaves the store unchanged. -/
theorem mint_tokens_at_most_once_witness :
    mintTokens testEnv mintC1 "bolt11" "q1" [] =
      (.error .MintQuoteAlreadyIssued, mintC1.db) :=
  (mint_tokens_at_most_once testEnv mintC1 "q1" [] [] quoteC1 (by decide)).1 (by decide)

/-- C10: on a mint quote that is Paid but not yet Issued, MintTokens with an
empty list of blinded messages succeeds, returns an empty signature list,
and transitions the quote to Issued; after that, every further MintTokens
call for the quote returns MintQuoteAlreadyIssued, so the quote's remaining
value is permanently forfeited. -/
theorem mint_tokens_empty_messages (env : Env) (m : Mint) (id : String)
    (msgs2 : List BlindedMessage) (q : MintQuote)
    (hq : getMintQuote m.db id = some q) (hpaid : q.state = .Paid) :
    mintTokens env m "bolt11" id [] =
      (.ok [], updateMintQuoteState m.db q.id .Issued) ∧
    getMintQuote (updateMintQuoteState m.db q.id .Issued) id =
      some { q with state := .Issued } ∧
    mintTokens env { m with db := updateMintQuoteState m.db q.id .Issued }
        "bolt11" id msgs2 =
      (.error .MintQuoteAlreadyIssued, updateMintQuoteState m.db q.id .Issued) := by
  have hq' : getMintQuote (updateMintQuoteState m.db q.id .Issued) id =
      some { q with state := .Issued } := by
    rw [getMintQuote_update, hq]
    simp
  refine ⟨?_, hq', ?_⟩
  · unfold mintTokens
    simp [hq, hpaid, sumAmounts, getBlindSignatures, signBlindedMessages,
      signBlindedMessagesGo]
  · unfold mintTokens
    simp [hq']

/-- A mint holding one Paid mint quote, for the C10 witness. -/
def mintC10 : Mint :=
  { db := { emptyDB with mintQuotes := [{ quoteC1 with id := "q10", state := .Paid }] },
    activeKeysets := [], keysets := [], limits := noLimits }

/-- Witness for C10: a concrete Paid quote redeemed against zero blinded
messages yields an empty signature list and an Issued quote. -/
theorem mint_tokens_empty_messages_witness :
    mintTokens testEnv mintC10 "bolt11" "q10" [] =
      (.ok [], updateMintQuoteState mintC10.db "q10" .Issued) ∧
    getMintQuote (updateMintQuoteState mintC10.db "q10" .Issued) "q10" =
      some { quoteC1 with id := "q10", state := .Issued } :=
  ⟨((mint_tokens_empty_messages testEnv mintC10 "q10" []
      { quoteC1 with id := "q10", state := .Paid } (by decide) (by decide)).1),
   ((mint_tokens_empty_messages testEnv mintC10 "q10" []
      { quoteC1 with id := "q10", state := .Paid } (by decide) (by decide)).2.1)⟩

/-- C2: verifyProofs applies its rejections in a fixed order with the first
match winning — empty list → NoProofsProvided; some submitted Y in the
pending table → ProofPending; some submitted Y in the spent table →
ProofAlreadyUsed; duplicate Y in the list → DuplicateProofs — and only when
none of these fire does the per-proof loop run, in which an unknown keyset
id yields UnknownKeyset and an unknown amount or a failed BDHKE
verification yields InvalidProof. -/
theorem verify_proofs_rejection_order (env : Env) (m : Mint)
    (proofs : List Proof) (ys ys0 : List String) (p : Proof) (rest : List Proof) :
    (verifyProofs env m [] ys0 = .error .NoProofsProvided) ∧
    (proofs ≠ [] → getPendingProofs m.db ys ≠ [] →
      verifyProofs env m proofs ys = .error .ProofPending) ∧
    (proofs ≠ [] → getPendingProofs m.db ys = [] → getProofsUsed m.db ys ≠ [] →
      verifyProofs env m proofs ys = .error .ProofAlreadyUsed) ∧
    (proofs ≠ [] → getPendingProofs m.db ys = [] → getProofsUsed m.db ys = [] →
      hasDuplicates ys = true →
      verifyProofs env m proofs ys = .error .DuplicateProofs) ∧
    (proofs ≠ [] → getPendingProofs m.db ys = [] → getProofsUsed m.db ys = [] →
      hasDuplicates ys = false →
      verifyProofs env m proofs ys = perProofChecks env m proofs) ∧
    (lookupKeyset m.keysets p.id = none →
      perProofChecks env m (p :: rest) = .error .UnknownKeyset) ∧
    (∀ keyset, lookupKeyset m.keysets p.id = some keyset →
      keyset.keys.contains p.amount = false →
      perProofChecks env m (p :: rest) = .error .InvalidProof) ∧
    (∀ keyset, lookupKeyset m.keysets p.id = some keyset →
      keyset.keys.contains p.amount = true →
      env.isSecretP2PK p.secret = false →
      env.parsePoint p.C = true →
      env.verify p.id p.amount p.secret p.C = false →
      perProofChecks env m (p :: rest) = .error .InvalidProof) := by
  refine ⟨?_, ?_, ?_, ?_, ?_, ?_, ?_, ?_⟩
  · simp [verifyProofs]
  · intro h1 h2
    unfold verifyProofs
    simp [h1, h2]
  · intro h1 h2 h3
    unfold verifyProofs
    simp [h1, h2, h3]
  · intro h1 h2 h3 h4
    unfold verifyProofs
    simp [h1, h2, h3, h4]
  · intro h1 h2 h3 h4
    unfold verifyProofs
    simp [h1, h2, h3, h4]
  · intro hk
    unfold perProofChecks
    simp [hk]
  · intro keyset hk ha
    have ha' : p.amount ∉ keyset.keys := by simpa using ha
    unfold perProofChecks
    simp [hk, ha']
  · intro keyset hk ha hp2 hpt hv
    have ha' : p.amount ∈ keyset.keys := by simpa using ha
    unfold perProofChecks
    simp [hk, ha', hp2, hpt, hv]

/-- A pending-table row with Y "yp". -/
def rowPending : DBProof :=
  { y := "yp", amount := 4, id := "k2", secret := "sp", c := "cp", quoteId := "mq" }

/-- A spent-table row with Y "yu". -/
def rowSpent : DBProof :=
  { y := "yu", amount := 4, id := "k2", secret := "su", c := "cu", quoteId := "" }

/-- A keyset "k2" holding an amount-4 key with no fee. -/
def keysetC2 : MintKeyset := { id := "k2", keys := [4], inputFeePpk := 0 }

/-- A mint with one pending Y ("yp"), one spent Y ("yu") and keyset "k2",
for the C2 witness. -/
def mintC2 : Mint :=
  { db := { emptyDB with pendingProofs := [rowPending], usedProofs := [rowSpent] },
    activeKeysets := [keysetC2], keysets := [keysetC2], limits := noLimits }

/-- A well-formed proof under keyset "k2". -/
def proofC2 : Proof :=
  { amount := 4, id := "k2", secret := "sa", C := "ca", witness := "" }

/-- Witness for C2 at concrete inputs: each rejection fires on a store that
exhibits it. -/
theorem verify_proofs_rejection_order_witness :
    verifyProofs testEnv mintC2 [] [] = .error .NoProofsProvided ∧
    verifyProofs testEnv mintC2 [proofC2] ["yp"] = .error .ProofPending ∧
    verifyProofs testEnv mintC2 [proofC2] ["yu"] = .error .ProofAlreadyUsed ∧
    verifyProofs testEnv mintC2 [proofC2, proofC2] ["sa", "sa"] =
      .error .DuplicateProofs ∧
    perProofChecks testEnv mintC2 [{ proofC2 with id := "nokeyset" }] =
      .error .UnknownKeyset :=
  ⟨(verify_proofs_rejection_order testEnv mintC2 [] [] [] proofC2 []).1,
   (verify_proofs_rejection_order testEnv mintC2 [proofC2] ["yp"] []
      proofC2 []).2.1 (by decide) (by decide),
   (verify_proofs_rejection_order testEnv mintC2 [proofC2] ["yu"] []
      proofC2 []).2.2.1 (by decide) (by decide) (by decide),
   (verify_proofs_rejection_order testEnv mintC2 [proofC2, proofC2] ["sa", "sa"] []
      proofC2 []).2.2.2.1 (by decide) (by decide) (by decide) (by decide),
   (verify_proofs_rejection_order testEnv mintC2 [] [] []
      { proofC2 with id := "nokeyset" } []).2.2.2.2.2.1 (by decide)⟩

theorem computeYs_none (env : Env) (proofs : List Proof) :
    computeYs env proofs = none ↔ ∃ p ∈ proofs, env.hashToCurve p.secret = none := by
  induction proofs with
  | nil => simp [computeYs]
  | cons p ps ih =>
    cases h : env.hashToCurve p.secret <;>
      simp [computeYs, h, ih, Option.map_eq_none']

/-- C9: MeltTokens computes Y = hash_to_curve(secret) for every proof before
any other check — a failing secret yields InvalidProof for every method and
quote id; with well-formed proofs an unsupported method yields
PaymentMethodNotSupported before the quote is looked up; then a missing
quote yields QuoteNotExist; then a Paid quote MeltQuoteAlreadyPaid and a
Pending quote MeltQuotePending. -/
theorem melt_tokens_early_check_order (env : Env) (m : Mint)
    (method quoteId : String) (proofs : List Proof) :
    ((∃ p ∈ proofs, env.hashToCurve p.secret = none) →
      meltTokens env m method quoteId proofs = (.error .InvalidProof, m.db, [])) ∧
    (∀ ys, computeYs env proofs = some ys → method ≠ "bolt11" →
      meltTokens env m method quoteId proofs =
        (.error .PaymentMethodNotSupported, m.db, [])) ∧
    (∀ ys, computeYs env proofs = some ys → getMeltQuote m.db quoteId = none →
      meltTokens env m "bolt11" quoteId proofs = (.error .QuoteNotExist, m.db, [])) ∧
    (∀ ys q, computeYs env proofs = some ys → getMeltQuote m.db quoteId = some q →
      q.state = .Paid →
      meltTokens env m "bolt11" quoteId proofs =
        (.error .MeltQuoteAlreadyPaid, m.db, [])) ∧
    (∀ ys q, computeYs env proofs = some ys → getMeltQuote m.db quoteId = some q →
      q.state = .Pending →
      meltTokens env m "bolt11" quoteId proofs =
        (.error .MeltQuotePending, m.db, [])) := by
  refine ⟨?_, ?_, ?_, ?_, ?_⟩
  · intro hex
    have hn : computeYs env proofs = none := (computeYs_none env proofs).2 hex
    unfold meltTokens
    simp [hn]
  · intro ys hys hm
    unfold meltTokens
    simp [hys, hm]
  · intro ys hys hq
    unfold meltTokens
    simp [hys, hq]
  · intro ys q hys hq hst
    unfold meltTokens
    simp [hys, hq, hst]
  · intro ys q hys hq hst
    unfold meltTokens
    simp [hys, hq, hst]

/-- A proof whose secret the hash-to-curve oracle rejects. -/
def badProof : Proof :=
  { amount := 4, id := "k2", secret := "badsecret", C := "cb", witness := "" }

/-- Witness for C9 at concrete inputs: a malformed secret beats the method
check, the method check beats quote lookup, and a missing quote yields
QuoteNotExist. -/
theorem melt_tokens_early_check_order_witness :
    meltTokens testEnv mintC2 "zzz" "nosuchquote" [badProof] =
      (.error .InvalidProof, mintC2.db, []) ∧
    meltTokens testEnv mintC2 "zzz" "nosuchquote" [proofC2] =
      (.error .PaymentMethodNotSupported, mintC2.db, []) ∧
    meltTokens testEnv mintC2 "bolt11" "nosuchquote" [proofC2] =
      (.error .QuoteNotExist, mintC2.db, []) :=
  ⟨(melt_tokens_early_check_order testEnv mintC2 "zzz" "nosuchquote" [badProof]).1
      (by refine ⟨badProof, ?_, ?_⟩ <;> decide),
   (melt_tokens_early_check_order testEnv mintC2 "zzz" "nosuchquote" [proofC2]).2.1
      ["sa"] (by decide) (by decide),
   (melt_tokens_early_check_order testEnv mintC2 "bolt11" "nosuchquote" [proofC2]).2.2.1
      ["sa"] (by decide) (by decide)⟩

/-- Three blinded messages of 2^63 each: their true sum 3·2^63 overflows
u64, but the wrapped sum is 2^63, which is not below any element, so the
source's overflow check does not fire. -/
def overMsgs : List BlindedMessage :=
  [{ amount := 2 ^ 63, id := "ks", B_ := "b1", witness := "" },
   { amount := 2 ^ 63, id := "ks", B_ := "b2", witness := "" },
   { amount := 2 ^ 63, id := "ks", B_ := "b3", witness := "" }]

/-- A keyset holding a key for amount 2^63. -/
def keysetC5 : MintKeyset := { id := "ks", keys := [2 ^ 63], inputFeePpk := 0 }

/-- A Paid quote of amount 100. -/
def quoteC5small : MintQuote :=
  { id := "q5", amount := 100, paymentRequest := "pr", paymentHash := "ph5",
    state := .Paid, expiry := 0 }

/-- A Paid quote of amount 2^63. -/
def quoteC5big : MintQuote := { quoteC5small with amount := 2 ^ 63 }

/-- A mint with a Paid quote of amount 100, for C5. -/
def mintC5small : Mint :=
  { db := { emptyDB with mintQuotes := [quoteC5small] },
    activeKeysets := [keysetC5], keysets := [keysetC5], limits := noLimits }

/-- A mint with a Paid quote of amount 2^63, for C5. -/
def mintC5big : Mint :=
  { db := { emptyDB with mintQuotes := [quoteC5big] },
    activeKeysets := [keysetC5], keysets := [keysetC5], limits := noLimits }

/-- The signature testEnv produces for a 2^63 message with blinded point b. -/
def sigOver (b : String) : BlindedSignature :=
  { amount := 2 ^ 63, C_ := b, id := "ks", dleqE := "e", dleqS := "s" }

/-- C5 (code bug): blinded messages [2^63, 2^63, 2^63] truly sum past
2^64 - 1, yet MintTokens does not return InvalidBlindedMessageAmount: the
wrapped sum 2^63 is not below any single amount, so against a 100-sat quote
the call fails with OutputsOverQuoteAmount instead, and against a 2^63-sat
quote it even succeeds and produces three signatures. -/
theorem mint_tokens_overflow_missed :
    2 ^ 64 - 1 < (overMsgs.map (fun bm => bm.amount)).sum ∧
    mintTokens testEnv mintC5small "bolt11" "q5" overMsgs =
      (.error .OutputsOverQuoteAmount, mintC5small.db) ∧
    (mintTokens testEnv mintC5big "bolt11" "q5" overMsgs).1 =
      .ok [sigOver "b1", sigOver "b2", sigOver "b3"] := by
  refine ⟨by decide, by decide, by decide⟩

/-- A keyset whose per-proof fee is 1001 ppk, so one proof owes a 2-sat fee. -/
def keysetC6 : MintKeyset := { id := "ksf", keys := [1], inputFeePpk := 1001 }

/-- A mint with keyset "ksf" and empty tables, for C6. -/
def mintC6 : Mint :=
  { db := emptyDB, activeKeysets := [keysetC6], keysets := [keysetC6],
    limits := noLimits }

/-- A valid 1-sat proof under keyset "ksf". -/
def proofC6 : Proof :=
  { amount := 1, id := "ksf", secret := "s1", C := "c1", witness := "" }

/-- C6 (code bug): the fee formula matches the spec's ceiling division
(fee = 2 here), but the insufficiency check computes
`proofsAmount - fees` in u64: with a 1-sat input and a 2-sat fee the
subtraction wraps to 2^64 - 1, the check passes, and the swap (with zero
outputs, so inputs < outputs + fee) succeeds instead of failing with
InsufficientProofsAmount. -/
theorem swap_fee_underflow :
    transactionFees mintC6 [proofC6] = (1001 + 999) / 1000 ∧
    ([proofC6].map (fun p => p.amount)).sum <
      (([] : List BlindedMessage).map (fun bm => bm.amount)).sum +
        transactionFees mintC6 [proofC6] ∧
    (swap testEnv mintC6 [proofC6] []).1 = .ok [] := by
  refine ⟨by decide, by decide, by decide⟩

/-- An environment whose P2PK oracles report a secret with data key "pd",
tags pubkeys=["p2"], n_sigs=0 and no locktime, and whose signature checker
accepts exactly when "p2" is among the allowed keys. -/
def envC7 : Env :=
  { testEnv with
    isSecretP2PK := fun _ => true
    deserializeSecret := fun _ => some { data := "pd", tags := [] }
    parseP2PKTags := fun _ =>
      .ok { nsigs := 0, pubkeys := ["p2"], locktime := 0, refund := [] }
    parsePublicKey := fun s => some s
    parseWitness := fun _ => some ["sig2"]
    hasValidSignatures := fun _ _ _ keys => keys.contains "p2" }

/-- A P2PK-locked proof carrying one witness signature. -/
def proofC7 : Proof :=
  { amount := 1, id := "k", secret := "sec", C := "c", witness := "w" }

/-- C7 counterexample: for a P2PK proof with pubkeys=["p2"] and n_sigs
absent (0), the claim's rule — allowed keys {data} ∪ pubkeys, required
max(1, n_sigs)=1 — is satisfied (the oracle accepts the one witness
signature against key set ["pd", "p2"]), yet the source rejects the proof
with NotEnoughSignatures because with n_sigs=0 it allows only the data key
and ignores the pubkeys tag. -/
theorem verify_p2pk_pubkeys_ignored_counterexample :
    envC7.hasValidSignatures (envC7.sha256 proofC7.secret) ["sig2"] (max 1 0)
      ["pd", "p2"] = true ∧
    ((envC7.parseWitness proofC7.witness).getD []).length ≥ 1 ∧
    verifyP2PKLockedProof envC7 proofC7 = .error .NotEnoughSignatures := by
  refine ⟨by decide, by decide, by decide⟩

theorem check_sig_iff (sigs : List String) (b : Bool) (e1 : Err) :
    ((if sigs.length < 1 then Except.error Err.InvalidWitness
      else if ¬ b = true then Except.error e1
      else Except.ok ()) = Except.ok ()) ↔ sigs ≠ [] ∧ b = true := by
  by_cases h1 : sigs.length < 1
  · have hnil : sigs = [] := List.length_eq_zero.mp (Nat.lt_one_iff.mp h1)
    simp [h1, hnil]
  · have hne : sigs ≠ [] := by
      intro hh
      subst hh
      simp at h1
    by_cases h2 : b <;> simp [h1, h2, hne]

/-- C7 amended: in verifyP2PKLockedProof, when the locktime is positive and
expired, an empty refund list makes the proof spendable with no witness,
and a non-empty refund list requires a non-empty witness with one valid
signature from the refund keys over SHA256(secret); otherwise the required
signatures are n_sigs when n_sigs > 0 and 1 when the tag is absent, and the
allowed keys are the data key alone when n_sigs = 0, or the data key
together with the pubkeys tag when n_sigs > 0 — in which case an empty
pubkeys tag is rejected outright with EmptyPubkeys. -/
theorem verify_p2pk_characterization (env : Env) (p : Proof)
    (sec : WellKnownSecret) (tags : P2PKTags)
    (hds : env.deserializeSecret p.secret = some sec)
    (htags : env.parseP2PKTags sec.tags = .ok tags) :
    ((tags.locktime > 0 ∧ env.now > tags.locktime) → tags.refund = [] →
      verifyP2PKLockedProof env p = .ok ()) ∧
    ((tags.locktime > 0 ∧ env.now > tags.locktime) → tags.refund ≠ [] →
      (verifyP2PKLockedProof env p = .ok () ↔
        (env.parseWitness p.witness).getD [] ≠ [] ∧
        env.hasValidSignatures (env.sha256 p.secret)
          ((env.parseWitness p.witness).getD []) 1 tags.refund = true)) ∧
    (¬ (tags.locktime > 0 ∧ env.now > tags.locktime) →
      ∀ pk, env.parsePublicKey sec.data = some pk →
      (tags.nsigs > 0 → tags.pubkeys = [] →
        verifyP2PKLockedProof env p = .error .EmptyPubkeys) ∧
      (tags.nsigs > 0 → tags.pubkeys ≠ [] →
        (verifyP2PKLockedProof env p = .ok () ↔
          (env.parseWitness p.witness).getD [] ≠ [] ∧
          env.hasValidSignatures (env.sha256 p.secret)
            ((env.parseWitness p.witness).getD []) tags.nsigs
            (pk :: tags.pubkeys) = true)) ∧
      (¬ tags.nsigs > 0 →
        (verifyP2PKLockedProof env p = .ok () ↔
          (env.parseWitness p.witness).getD [] ≠ [] ∧
          env.hasValidSignatures (env.sha256 p.secret)
            ((env.parseWitness p.witness).getD []) 1 [pk] = true))) := by
  refine ⟨?_, ?_, ?_⟩
  · intro hlock hrf
    simp only [verifyP2PKLockedProof, hds, htags]
    rw [if_pos hlock, if_pos hrf]
  · intro hlock hrf
    simp only [verifyP2PKLockedProof, hds, htags]
    rw [if_pos hlock, if_neg hrf]
    exact check_sig_iff _ _ _
  · intro hlock pk hpk
    refine ⟨?_, ?_, ?_⟩
    · intro hns hpe
      simp only [verifyP2PKLockedProof, hds, htags, hpk]
      rw [if_neg hlock, if_pos hns, if_pos hpe]
    · intro hns hpe
      simp only [verifyP2PKLockedProof, hds, htags, hpk]
      rw [if_neg hlock, if_pos hns, if_neg hpe]
      exact check_sig_iff _ _ _
    · intro hns
      simp only [verifyP2PKLockedProof, hds, htags, hpk]
      rw [if_neg hlock, if_neg hns]
      exact check_sig_iff _ _ _

/-- envC7 with an expired locktime and no refund keys. -/
def envC7w : Env :=
  { envC7 with
    parseP2PKTags := fun _ =>
      .ok { nsigs := 0, pubkeys := [], locktime := 5, refund := [] }
    now := 10 }

/-- Witness for the amended C7: an expired locktime with no refund keys
makes the concrete proof spendable with no witness at all. -/
theorem verify_p2pk_characterization_witness :
    verifyP2PKLockedProof envC7w proofC7 = .ok () :=
  (verify_p2pk_characterization envC7w proofC7 { data := "pd", tags := [] }
    { nsigs := 0, pubkeys := [], locktime := 5, refund := [] }
    (by decide) (by decide)).1 (by decide) (by decide)

/-- An Unpaid melt quote over invoice "inv3" with payment hash "ph3". -/
def quoteC3 : MeltQuote :=
  { id := "mq3", invoiceRequest := "inv3", paymentHash := "ph3", amount := 1,
    feeReserve := 0, state := .Unpaid, expiry := 0, preimage := "" }

/-- A keyset "k3" with an amount-5 key and no fee. -/
def keysetC3 : MintKeyset := { id := "k3", keys := [5], inputFeePpk := 0 }

/-- A mint holding only the melt quote quoteC3. -/
def mintC3 : Mint :=
  { db := { emptyDB with meltQuotes := [quoteC3] },
    activeKeysets := [keysetC3], keysets := [keysetC3], limits := noLimits }

/-- A valid 5-sat proof under keyset "k3". -/
def proofC3 : Proof :=
  { amount := 5, id := "k3", secret := "s3", C := "c3", witness := "" }

/-- An environment whose SendPayment reports status Failed without a Go
error, and whose outgoing-payment probe also reports Failed with a nil
error. -/
def envC3 : Env :=
  { testEnv with sendPayment := fun _ _ => .ok { status := .Failed, preimage := "" } }

/-- C3 counterexample: SendPayment reports Failed, the outgoing-status
probe reports Failed with a nil error, and — contrary to the claim's
"probe reports Failed → mark Unpaid and remove the pending proofs" — the
quote is returned still Pending and the proofs remain in the pending
table. -/
theorem melt_probe_failed_counterexample :
    (envC3.outgoingPaymentStatus "ph3").1.status = .Failed ∧
    (envC3.outgoingPaymentStatus "ph3").2 = none ∧
    (meltTokens envC3 mintC3 "bolt11" "mq3" [proofC3]).1 =
      .ok { quoteC3 with state := .Pending } ∧
    (meltTokens envC3 mintC3 "bolt11" "mq3" [proofC3]).2.1.pendingProofs =
      [{ y := "s3", amount := 5, id := "k3", secret := "s3", c := "c3",
         quoteId := "mq3" }] := by
  refine ⟨by decide, by decide, by decide, by decide⟩

theorem getMintQuoteByPaymentHash_congr (db db' : MintDB) (hash : String)
    (h : db.mintQuotes = db'.mintQuotes) :
    getMintQuoteByPaymentHash db hash = getMintQuoteByPaymentHash db' hash := by
  unfold getMintQuoteByPaymentHash
  rw [h]

theorem filter_append_zip_rows (l : List DBProof) (ys : List String)
    (proofs : List Proof) (qid : String) :
    (l ++ (ys.zip proofs).map (toDBProof qid)).filter (fun p => ¬ ys.contains p.y) =
      l.filter (fun p => ¬ ys.contains p.y) := by
  rw [List.filter_append]
  have hnil : ((ys.zip proofs).map (toDBProof qid)).filter
      (fun p => ¬ ys.contains p.y) = [] := by
    rw [List.filter_eq_nil]
    intro a ha
    simp only [List.mem_map] at ha
    obtain ⟨yp, hmem, rfl⟩ := ha
    have hy : yp.1 ∈ ys := (List.mem_zip hmem).1
    simp [toDBProof, hy]
  rw [hnil, List.append_nil]

theorem zip_row_y_mem (ys : List String) (proofs : List Proof) (qid : String) :
    ∀ (a : DBProof) (y : String) (pf : Proof), (y, pf) ∈ ys.zip proofs →
      toDBProof qid (y, pf) = a → a.y ∈ ys := by
  intro a y pf hmem heq
  subst heq
  simpa [toDBProof] using (List.of_mem_zip hmem).1

/-- The proposition that SendPayment came back ambiguous: either status
Failed with no Go error, or a Go error whose message does not contain
"payment error". -/
def sendPaymentAmbiguous (env : Env) (q : MeltQuote) : Prop :=
  (∃ pre, env.sendPayment q.invoiceRequest q.amount =
    .ok { status := .Failed, preimage := pre }) ∨
  (∃ e, env.sendPayment q.invoiceRequest q.amount = .error e ∧
    strContains e "payment error" = false)

/-- C3 amended: for a MeltTokens call that reaches the external-payment
step, the SendPayment outcome maps as the claim says for the
"payment error" error (quote Unpaid, pending proofs removed), Succeeded
(proofs settled as spent, quote Paid with the preimage) and Pending (quote
and proofs left pending) cases, and any other error falls through to the
outgoing-status probe; but in the probe the quote is marked Unpaid and the
pending proofs removed only when the probe call itself returns an error —
a Failed probe report with a nil error leaves the quote and the proofs
Pending. -/
theorem melt_send_payment_outcome (env : Env) (m : Mint) (quoteId : String)
    (proofs : List Proof) (ys : List String) (q : MeltQuote)
    (hys : computeYs env proofs = some ys)
    (hq : getMeltQuote m.db quoteId = some q)
    (hst : q.state = .Unpaid)
    (hvp : verifyProofs env m proofs ys = .ok ())
    (hamt : ¬ sumAmounts (proofs.map (fun p => p.amount)) <
      add64 (add64 q.amount q.feeReserve) (transactionFees m proofs))
    (hsig : env.proofsSigAll proofs = false)
    (hmq : getMintQuoteByPaymentHash m.db q.paymentHash = none) :
    (∀ e, env.sendPayment q.invoiceRequest q.amount = .error e →
      strContains e "payment error" = true →
      (meltTokens env m "bolt11" quoteId proofs).1 = .ok { q with state := .Unpaid } ∧
      (meltTokens env m "bolt11" quoteId proofs).2.1.pendingProofs =
        m.db.pendingProofs.filter (fun p => ¬ ys.contains p.y) ∧
      (meltTokens env m "bolt11" quoteId proofs).2.1.usedProofs = m.db.usedProofs) ∧
    (∀ resp, env.sendPayment q.invoiceRequest q.amount = .ok resp →
      resp.status = .Succeeded →
      (meltTokens env m "bolt11" quoteId proofs).1 =
        .ok { q with state := .Paid, preimage := resp.preimage } ∧
      (meltTokens env m "bolt11" quoteId proofs).2.1.pendingProofs =
        m.db.pendingProofs.filter (fun p => ¬ ys.contains p.y) ∧
      (meltTokens env m "bolt11" quoteId proofs).2.1.usedProofs =
        m.db.usedProofs ++ (ys.zip proofs).map (toDBProof "")) ∧
    (∀ resp, env.sendPayment q.invoiceRequest q.amount = .ok resp →
      resp.status = .Pending →
      (meltTokens env m "bolt11" quoteId proofs).1 = .ok { q with state := .Pending } ∧
      (meltTokens env m "bolt11" quoteId proofs).2.1.pendingProofs =
        m.db.pendingProofs ++ (ys.zip proofs).map (toDBProof q.id) ∧
      (meltTokens env m "bolt11" quoteId proofs).2.1.usedProofs = m.db.usedProofs) ∧
    (sendPaymentAmbiguous env q →
      (env.outgoingPaymentStatus q.paymentHash).1.status = .Pending →
      (meltTokens env m "bolt11" quoteId proofs).1 = .ok { q with state := .Pending } ∧
      (meltTokens env m "bolt11" quoteId proofs).2.1.pendingProofs =
        m.db.pendingProofs ++ (ys.zip proofs).map (toDBProof q.id) ∧
      (meltTokens env m "bolt11" quoteId proofs).2.1.usedProofs = m.db.usedProofs) ∧
    (sendPaymentAmbiguous env q →
      (env.outgoingPaymentStatus q.paymentHash).1.status = .Succeeded →
      (meltTokens env m "bolt11" quoteId proofs).1 =
        .ok { q with
              state := .Paid,
              preimage := (env.outgoingPaymentStatus q.paymentHash).1.preimage } ∧
      (meltTokens env m "bolt11" quoteId proofs).2.1.pendingProofs =
        m.db.pendingProofs.filter (fun p => ¬ ys.contains p.y) ∧
      (meltTokens env m "bolt11" quoteId proofs).2.1.usedProofs =
        m.db.usedProofs ++ (ys.zip proofs).map (toDBProof "")) ∧
    (sendPaymentAmbiguous env q →
      (env.outgoingPaymentStatus q.paymentHash).1.status = .Failed →
      (env.outgoingPaymentStatus q.paymentHash).2 ≠ none →
      (meltTokens env m "bolt11" quoteId proofs).1 = .ok { q with state := .Unpaid } ∧
      (meltTokens env m "bolt11" quoteId proofs).2.1.pendingProofs =
        m.db.pendingProofs.filter (fun p => ¬ ys.contains p.y) ∧
      (meltTokens env m "bolt11" quoteId proofs).2.1.usedProofs = m.db.usedProofs) ∧
    (sendPaymentAmbiguous env q →
      (env.outgoingPaymentStatus q.paymentHash).1.status = .Failed →
      (env.outgoingPaymentStatus q.paymentHash).2 = none →
      (meltTokens env m "bolt11" quoteId proofs).1 = .ok { q with state := .Pending } ∧
      (meltTokens env m "bolt11" quoteId proofs).2.1.pendingProofs =
        m.db.pendingProofs ++ (ys.zip proofs).map (toDBProof q.id) ∧
      (meltTokens env m "bolt11" quoteId proofs).2.1.usedProofs = m.db.usedProofs) := by
  have hmq' : m.db.mintQuotes.find? (fun x => x.paymentHash = q.paymentHash) =
      none := hmq
  refine ⟨?_, ?_, ?_, ?_, ?_, ?_, ?_⟩
  · intro e hsp hpe
    unfold meltTokens
    simp [hys, hq, hst, hvp, hamt, hsig, getMintQuoteByPaymentHash, hmq', hsp, hpe, updateMeltQuote,
      addPendingProofs, removePendingProofs, saveProofs, filter_append_zip_rows]
    all_goals exact zip_row_y_mem ys proofs q.id
  · intro resp hsp hss
    unfold meltTokens
    simp [hys, hq, hst, hvp, hamt, hsig, getMintQuoteByPaymentHash, hmq', hsp, hss, updateMeltQuote,
      addPendingProofs, removePendingProofs, saveProofs, filter_append_zip_rows]
    all_goals exact zip_row_y_mem ys proofs q.id
  · intro resp hsp hss
    unfold meltTokens
    simp [hys, hq, hst, hvp, hamt, hsig, getMintQuoteByPaymentHash, hmq', hsp, hss, updateMeltQuote,
      addPendingProofs, removePendingProofs, saveProofs, filter_append_zip_rows]
    all_goals exact zip_row_y_mem ys proofs q.id
  · intro hsp hprobe
    rcases hsp with ⟨pre, hsp⟩ | ⟨e, hsp, hpe⟩
    · unfold meltTokens meltHandleFailed
      simp [hys, hq, hst, hvp, hamt, hsig, getMintQuoteByPaymentHash, hmq', hsp, hprobe,
        updateMeltQuote, addPendingProofs, removePendingProofs, saveProofs,
        filter_append_zip_rows]
      all_goals exact zip_row_y_mem ys proofs q.id
    · unfold meltTokens meltHandleFailed
      simp [hys, hq, hst, hvp, hamt, hsig, getMintQuoteByPaymentHash, hmq', hsp, hpe, hprobe,
        updateMeltQuote, addPendingProofs, removePendingProofs, saveProofs,
        filter_append_zip_rows]
      all_goals exact zip_row_y_mem ys proofs q.id
  · intro hsp hprobe
    rcases hsp with ⟨pre, hsp⟩ | ⟨e, hsp, hpe⟩
    · unfold meltTokens meltHandleFailed
      rcases hopt : (env.outgoingPaymentStatus q.paymentHash).2 with _ | perr <;>
        simp [hys, hq, hst, hvp, hamt, hsig, getMintQuoteByPaymentHash, hmq', hsp, hprobe, hopt,
          updateMeltQuote, addPendingProofs, removePendingProofs, saveProofs,
          filter_append_zip_rows]
      all_goals exact zip_row_y_mem ys proofs q.id
    · unfold meltTokens meltHandleFailed
      rcases hopt : (env.outgoingPaymentStatus q.paymentHash).2 with _ | perr <;>
        simp [hys, hq, hst, hvp, hamt, hsig, getMintQuoteByPaymentHash, hmq', hsp, hpe, hprobe, hopt,
          updateMeltQuote, addPendingProofs, removePendingProofs, saveProofs,
          filter_append_zip_rows]
      all_goals exact zip_row_y_mem ys proofs q.id
  · intro hsp hprobe hperr
    have hperr' : (env.outgoingPaymentStatus q.paymentHash).2.isSome = true :=
      Option.isSome_iff_ne_none.mpr hperr
    rcases hsp with ⟨pre, hsp⟩ | ⟨e, hsp, hpe⟩
    · unfold meltTokens meltHandleFailed
      simp [hys, hq, hst, hvp, hamt, hsig, getMintQuoteByPaymentHash, hmq', hsp, hprobe, hperr',
        updateMeltQuote, addPendingProofs, removePendingProofs, saveProofs,
        filter_append_zip_rows]
      all_goals exact zip_row_y_mem ys proofs q.id
    · unfold meltTokens meltHandleFailed
      simp [hys, hq, hst, hvp, hamt, hsig, getMintQuoteByPaymentHash, hmq', hsp, hpe, hprobe, hperr',
        updateMeltQuote, addPendingProofs, removePendingProofs, saveProofs,
        filter_append_zip_rows]
      all_goals exact zip_row_y_mem ys proofs q.id
  · intro hsp hprobe hperr
    have hperr' : (env.outgoingPaymentStatus q.paymentHash).2.isSome = false := by
      rw [hperr]
      rfl
    rcases hsp with ⟨pre, hsp⟩ | ⟨e, hsp, hpe⟩
    · unfold meltTokens meltHandleFailed
      simp [hys, hq, hst, hvp, hamt, hsig, getMintQuoteByPaymentHash, hmq', hsp, hprobe, hperr',
        updateMeltQuote, addPendingProofs, removePendingProofs, saveProofs,
        filter_append_zip_rows]
      all_goals exact zip_row_y_mem ys proofs q.id
    · unfold meltTokens meltHandleFailed
      simp [hys, hq, hst, hvp, hamt, hsig, getMintQuoteByPaymentHash, hmq', hsp, hpe, hprobe, hperr',
        updateMeltQuote, addPendingProofs, removePendingProofs, saveProofs,
        filter_append_zip_rows]
      all_goals exact zip_row_y_mem ys proofs q.id

/-- Witness for the amended C3 at the concrete ambiguous scenario: the
SendPayment Failed / probe (Failed, nil error) leg leaves the quote and
the proofs pending. -/
theorem melt_send_payment_outcome_witness :
    (meltTokens envC3 mintC3 "bolt11" "mq3" [proofC3]).1 =
      .ok { quoteC3 with state := .Pending } ∧
    (meltTokens envC3 mintC3 "bolt11" "mq3" [proofC3]).2.1.pendingProofs =
      mintC3.db.pendingProofs ++
        ((["s3"].zip [proofC3]).map (toDBProof quoteC3.id)) ∧
    (meltTokens envC3 mintC3 "bolt11" "mq3" [proofC3]).2.1.usedProofs =
      mintC3.db.usedProofs :=
  (melt_send_payment_outcome envC3 mintC3 "mq3" [proofC3] ["s3"] quoteC3
    (by decide) (by decide) (by decide) (by decide) (by decide) (by decide)
    (by decide)).2.2.2.2.2.2
    (Or.inl ⟨"", by decide⟩) (by decide) (by decide)

theorem getMeltQuote_id (db : MintDB) (id : String) (q : MeltQuote)
    (h : getMeltQuote db id = some q) : q.id = id := by
  unfold getMeltQuote at h
  simpa using List.find?_some h

/-- C4: when a melt quote's payment hash matches a mint quote of this mint,
RequestMeltQuote zeroes the fee reserve (last conjunct), and MeltTokens
settles internally within the one call: the only backend call is
InvoiceStatus — SendPayment is never called — the melt quote ends Paid
carrying the invoice's preimage, the mint quote is marked Paid, and the
input proofs are removed from the pending table and recorded as spent. -/
theorem melt_internal_settlement (env : Env) (m : Mint) (quoteId : String)
    (proofs : List Proof) (ys : List String) (q : MeltQuote) (mq : MintQuote)
    (inv : InvoiceStat)
    (hys : computeYs env proofs = some ys)
    (hq : getMeltQuote m.db quoteId = some q)
    (hst : q.state = .Unpaid)
    (hvp : verifyProofs env m proofs ys = .ok ())
    (hamt : ¬ sumAmounts (proofs.map (fun p => p.amount)) <
      add64 (add64 q.amount q.feeReserve) (transactionFees m proofs))
    (hsig : env.proofsSigAll proofs = false)
    (hmq : getMintQuoteByPaymentHash m.db q.paymentHash = some mq)
    (hinv : env.invoiceStatus mq.paymentHash = .ok inv) :
    (meltTokens env m "bolt11" quoteId proofs).1 =
      .ok { q with state := .Paid, preimage := inv.preimage } ∧
    (meltTokens env m "bolt11" quoteId proofs).2.2 =
      [LNCall.invoiceStatusCall mq.paymentHash] ∧
    getMeltQuote (meltTokens env m "bolt11" quoteId proofs).2.1 quoteId =
      some { q with state := .Paid, preimage := inv.preimage } ∧
    (meltTokens env m "bolt11" quoteId proofs).2.1.mintQuotes =
      m.db.mintQuotes.map
        (fun x => if x.id = mq.id then { x with state := .Paid } else x) ∧
    (meltTokens env m "bolt11" quoteId proofs).2.1.pendingProofs =
      m.db.pendingProofs.filter (fun p => ¬ ys.contains p.y) ∧
    (meltTokens env m "bolt11" quoteId proofs).2.1.usedProofs =
      m.db.usedProofs ++ (ys.zip proofs).map (toDBProof "") ∧
    (∀ request b q2 db2, env.decodeInvoice request = .ok b →
      (getMintQuoteByPaymentHash m.db b.paymentHash).isSome →
      requestMeltQuote env m "bolt11" request "sat" = (.ok q2, db2) →
      q2.feeReserve = 0) := by
  have hqid : q.id = quoteId := getMeltQuote_id _ _ _ hq
  have hmq' : m.db.mintQuotes.find? (fun x => x.paymentHash = q.paymentHash) =
      some mq := hmq
  have hrun : meltTokens env m "bolt11" quoteId proofs =
      (.ok { q with state := .Paid, preimage := inv.preimage },
       saveProofs (removePendingProofs (updateMintQuoteState
         (updateMeltQuote (updateMeltQuote (addPendingProofs m.db proofs ys q.id)
           q.id "" .Pending) q.id inv.preimage .Paid) mq.id .Paid) ys) proofs ys,
       [LNCall.invoiceStatusCall mq.paymentHash]) := by
    unfold meltTokens settleQuotesInternally
    simp [hys, hq, hst, hvp, hamt, hsig, getMintQuoteByPaymentHash, hmq', hinv,
      updateMeltQuote, addPendingProofs, updateMintQuoteState,
      removePendingProofs, saveProofs]
  refine ⟨?_, ?_, ?_, ?_, ?_, ?_, ?_⟩
  · rw [hrun]
  · rw [hrun]
  · rw [hrun]
    have e1 : getMeltQuote (saveProofs (removePendingProofs (updateMintQuoteState
        (updateMeltQuote (updateMeltQuote (addPendingProofs m.db proofs ys q.id)
          q.id "" .Pending) q.id inv.preimage .Paid) mq.id .Paid) ys) proofs ys)
        quoteId =
        getMeltQuote (updateMeltQuote (updateMeltQuote
          (addPendingProofs m.db proofs ys q.id) q.id "" .Pending)
          q.id inv.preimage .Paid) quoteId := rfl
    rw [e1, getMeltQuote_update, getMeltQuote_update]
    have e2 : getMeltQuote (addPendingProofs m.db proofs ys q.id) quoteId =
        getMeltQuote m.db quoteId := rfl
    rw [e2, hq]
    simp [hqid]
  · rw [hrun]
    rfl
  · rw [hrun]
    simp [removePendingProofs, addPendingProofs, updateMeltQuote,
      updateMintQuoteState, saveProofs, filter_append_zip_rows]
    all_goals exact zip_row_y_mem ys proofs q.id
  · rw [hrun]
    rfl
  · intro request b q2 db2 hdec hsome hreq
    unfold requestMeltQuote at hreq
    rw [hdec] at hreq
    dsimp only [] at hreq
    rcases hh : getMintQuoteByPaymentHash m.db b.paymentHash with _ | mq2
    · rw [hh] at hsome
      simp at hsome
    · rw [hh] at hreq
      repeat'
        first
          | (injection hreq with h1 h2; injection h1)
          | dsimp only [] at hreq
          | split at hreq
      all_goals
        rename_i hoq
        rw [← hoq]

/-- An Unpaid melt quote whose payment hash "ph4" matches a mint quote of
the same mint. -/
def quoteC4 : MeltQuote :=
  { id := "mq4", invoiceRequest := "invA", paymentHash := "ph4", amount := 2,
    feeReserve := 0, state := .Unpaid, expiry := 0, preimage := "" }

/-- The mint quote sharing payment hash "ph4". -/
def mintQC4 : MintQuote :=
  { id := "A", amount := 2, paymentRequest := "prA", paymentHash := "ph4",
    state := .Unpaid, expiry := 0 }

/-- A mint holding both quotes of the internal-settlement pair. -/
def mintC4 : Mint :=
  { db := { emptyDB with mintQuotes := [mintQC4], meltQuotes := [quoteC4] },
    activeKeysets := [keysetC3], keysets := [keysetC3], limits := noLimits }

/-- Witness for C4 at the concrete pair: the melt quote ends Paid with the
invoice preimage and the only backend call is InvoiceStatus. -/
theorem melt_internal_settlement_witness :
    (meltTokens testEnv mintC4 "bolt11" "mq4" [proofC3]).1 =
      .ok { quoteC4 with state := .Paid, preimage := "preimg" } ∧
    (meltTokens testEnv mintC4 "bolt11" "mq4" [proofC3]).2.2 =
      [LNCall.invoiceStatusCall "ph4"] :=
  ⟨(melt_internal_settlement testEnv mintC4 "mq4" [proofC3] ["s3"] quoteC4
      mintQC4 { settled := true, preimage := "preimg" }
      (by decide) (by decide) (by decide) (by decide) (by decide) (by decide)
      (by decide) (by decide)).1,
   (melt_internal_settlement testEnv mintC4 "mq4" [proofC3] ["s3"] quoteC4
      mintQC4 { settled := true, preimage := "preimg" }
      (by decide) (by decide) (by decide) (by decide) (by decide) (by decide)
      (by decide) (by decide)).2.1⟩

end Gonuts
